import Mathlib

/-!
Verification of the SPA autonomous agent's generation–validation–retry
pipeline.  The Python sources (`agent/validator.py`, `agent/code_generator.py`,
`agent/idea_generator.py`, `agent/main.py`) are shallowly embedded below:
documents are `List Char`, Python `str.lower`/`str.strip`/substring tests and
the regular-expression searches used by the code are modelled as executable
functions, and the orchestrator's retry loop is modelled as explicit state
passing over an environment recording the outcome of each external call.
-/

namespace Agent

/-- The character list of a string literal (documents are `List Char`). -/
def str (s : String) : List Char := s.data

/-- Python `str.lower` on one character, exact on the ASCII and Latin-1
ranges: the uppercase letters `A`-`Z` and `À`-`Þ` (except `×`) shift by 32;
every other character of U+0000–U+00FF is unchanged (`ß` and `µ` have no
simple lowercase mapping).  Characters above U+00FF are outside the modelled
domain and left unchanged. -/
def lowerChar (c : Char) : Char :=
  if (65 ≤ c.toNat ∧ c.toNat ≤ 90) ∨
      (192 ≤ c.toNat ∧ c.toNat ≤ 222 ∧ c.toNat ≠ 215) then
    Char.ofNat (c.toNat + 32)
  else c

/-- Python `str.lower` over a document. -/
def lowerStr (s : List Char) : List Char := s.map lowerChar

/-- Python whitespace (the `\s` class and the default `str.strip` set). -/
def pySpace (c : Char) : Bool :=
  c = ' ' || c = '\t' || c = '\n' || c = '\r' || c = '\x0b' || c = '\x0c'

/-- Python `str.strip()`: drop leading and trailing whitespace. -/
def pyStrip (s : List Char) : List Char :=
  ((s.dropWhile pySpace).reverse.dropWhile pySpace).reverse

/-- `needle` occurs literally at the start of `s`. -/
def begMatch : List Char → List Char → Bool
  | [], _ => true
  | _ :: _, [] => false
  | a :: n, b :: t => a = b && begMatch n t

/-- Python substring test (`needle in hay`). -/
def hasSub (needle : List Char) : List Char → Bool
  | [] => needle.isEmpty
  | c :: t => begMatch needle (c :: t) || hasSub needle t

/-- Case-insensitive literal match at the start of `s` (needle written in
lowercase, `s` lowered before comparing), modelling `re.IGNORECASE`. -/
def begMatchCI (needle s : List Char) : Bool := begMatch needle (lowerStr s)

/-- Scanner for `countSub`: `skip` characters remain to be consumed from the
current match before scanning resumes. -/
def countSubAux (needle : List Char) : List Char → Nat → Nat
  | [], _ => 0
  | _ :: t, k + 1 => countSubAux needle t k
  | c :: t, 0 =>
      if begMatch needle (c :: t) then
        countSubAux needle t (needle.length - 1) + 1
      else countSubAux needle t 0

/-- Number of non-overlapping literal occurrences of `needle`, scanning left
to right — the semantics of `re.findall` on a literal pattern. -/
def countSub (needle : List Char) (hay : List Char) : Nat :=
  countSubAux needle hay 0

/-- The pattern `<{tag}[\s>]` matches at the start of `s`. -/
def openTagAt (tag : List Char) (s : List Char) : Bool :=
  begMatch ('<' :: tag) s &&
    (match List.drop (tag.length + 1) s with
     | [] => false
     | c :: _ => pySpace c || c = '>')

/-- Scanner for `countOpenTag` (a match is `tag.length + 2` characters long). -/
def countOpenAux (tag : List Char) : List Char → Nat → Nat
  | [], _ => 0
  | _ :: t, k + 1 => countOpenAux tag t k
  | c :: t, 0 =>
      if openTagAt tag (c :: t) then
        countOpenAux tag t (tag.length + 1) + 1
      else countOpenAux tag t 0

/-- Number of non-overlapping matches of `<{tag}[\s>]` (the validator's
opening-tag count for script/style blocks). -/
def countOpenTag (tag : List Char) (hay : List Char) : Nat :=
  countOpenAux tag hay 0

/-- Interior of the text before the first case-insensitive occurrence of
`needle`; `none` when `needle` never occurs (the lazy `(.*?)` step of a
regular-expression match). -/
def uptoCI (needle : List Char) : List Char → Option (List Char)
  | [] => none
  | c :: t =>
      if begMatchCI needle (c :: t) then some [] else
        match uptoCI needle t with
        | none => none
        | some r => some (c :: r)

/-- `re.search(r"<title>(.*?)</title>", html, IGNORECASE | DOTALL)`: the
leftmost `<title>` occurrence that is followed by a `</title>`, capturing the
(shortest) interior between them. -/
def titleSearch : List Char → Option (List Char)
  | [] => none
  | c :: t =>
      if begMatchCI (str "<title>") (c :: t) then
        match uptoCI (str "</title>") (List.drop 7 (c :: t)) with
        | some r => some r
        | none => titleSearch t
      else titleSearch t

/-! ## validator.py -/

def MIN_FILE_SIZE : Nat := 200
def MAX_FILE_SIZE : Nat := 500000

def REQUIRED_ELEMENTS : List (List Char) :=
  [str "<!doctype html>", str "<html", str "<head", str "<title", str "<body"]

def closingTags : List (List Char) := [str "</html>", str "</head>", str "</body>"]

/-- Length of the UTF-8 encoding (`len(html.encode("utf-8"))`). -/
def byteSize (s : List Char) : Nat := (s.map Char.utf8Size).sum

def msgTooSmall (size : Nat) : List Char :=
  str "File too small (" ++ (Nat.repr size).data ++ str " bytes, min " ++
    (Nat.repr MIN_FILE_SIZE).data ++ str ")"

def msgTooLarge (size : Nat) : List Char :=
  str "File too large (" ++ (Nat.repr size).data ++ str " bytes, max " ++
    (Nat.repr MAX_FILE_SIZE).data ++ str ")"

def msgMissingElement (el : List Char) : List Char :=
  str "Missing required element: " ++ el

def msgMissingClosing (tag : List Char) : List Char :=
  str "Missing closing tag: " ++ tag

def msgEmptyTitle : List Char := str "Empty <title> element"

def msgNoTitle : List Char := str "No <title> element found"

def msgMismatched (tag : List Char) (o c : Nat) : List Char :=
  str "Mismatched <" ++ tag ++ str "> tags: " ++ (Nat.repr o).data ++
    str " opened, " ++ (Nat.repr c).data ++ str " closed"

/-- The size-rule violations of `validate_html`. -/
def sizeErrors (html : List Char) : List (List Char) :=
  (if byteSize html < MIN_FILE_SIZE then [msgTooSmall (byteSize html)] else []) ++
  (if byteSize html > MAX_FILE_SIZE then [msgTooLarge (byteSize html)] else [])

/-- The required-element violations of `validate_html`. -/
def elementErrors (html_lower : List Char) : List (List Char) :=
  (REQUIRED_ELEMENTS.filter (fun el => ! hasSub el html_lower)).map msgMissingElement

/-- The closing-tag violations of `validate_html`. -/
def closingErrors (html_lower : List Char) : List (List Char) :=
  (closingTags.filter (fun t => ! hasSub t html_lower)).map msgMissingClosing

/-- The title-rule violations of `validate_html`. -/
def titleErrors (html : List Char) : List (List Char) :=
  match titleSearch html with
  | some interior => if (pyStrip interior).isEmpty then [msgEmptyTitle] else []
  | none => [msgNoTitle]

/-- The script/style balance violations of `validate_html`. -/
def balanceErrors (html_lower : List Char) : List (List Char) :=
  ([str "script", str "style"]).filterMap (fun tag =>
    let o := countOpenTag tag html_lower
    let c := countSub (str "</" ++ tag ++ str ">") html_lower
    if o ≠ c then some (msgMismatched tag o c) else none)

/-- `validator.validate_html`: returns `(is_valid, errors)`.  The
external-dependency heuristic of the source only logs a warning and never
appends to `errors`, so it does not appear in the embedding's result. -/
def validate_html (html : List Char) : Bool × List (List Char) :=
  let html_lower := lowerStr html
  let errors :=
    sizeErrors html ++ elementErrors html_lower ++ closingErrors html_lower ++
      titleErrors html ++ balanceErrors html_lower
  (errors.isEmpty, errors)

/-! Spec-level rule predicates (the structural rules of §4.4, stated
independently of the error-list construction). -/

/-- Size rule: UTF-8 byte length within `[200, 500000]`. -/
def sizeWithinBounds (html : List Char) : Prop :=
  MIN_FILE_SIZE ≤ byteSize html ∧ byteSize html ≤ MAX_FILE_SIZE

/-- Required-substring rule: each required element present case-insensitively. -/
def hasAllRequiredElements (html : List Char) : Prop :=
  ∀ el ∈ REQUIRED_ELEMENTS, hasSub el (lowerStr html) = true

/-- Closing-tag rule: each of the three closing tags present case-insensitively. -/
def hasAllClosingTags (html : List Char) : Prop :=
  ∀ t ∈ closingTags, hasSub t (lowerStr html) = true

/-- Non-empty-title rule: a title element is found and its trimmed interior
is non-empty. -/
def titleNonEmpty (html : List Char) : Prop :=
  ∃ r, titleSearch html = some r ∧ (pyStrip r).isEmpty = false

/-- Balanced-block rule: for each of script and style, the opening and
closing occurrence counts agree. -/
def balancedBlocks (html : List Char) : Prop :=
  countOpenTag (str "script") (lowerStr html) =
    countSub (str "</script>") (lowerStr html) ∧
  countOpenTag (str "style") (lowerStr html) =
    countSub (str "</style>") (lowerStr html)

/-! ## code_generator.py — `_extract_html` -/

/-- `` ```html `` or `` ```htm `` at the start of `s` (the `` ```html? `` part of
the fence pattern, greedy on the optional `l`); returns the rest. -/
def fenceTag (s : List Char) : Option (List Char) :=
  if begMatch (str "```html") s then some (List.drop 7 s)
  else if begMatch (str "```htm") s then some (List.drop 6 s)
  else none

/-- The `\s*\n` part of the fence pattern: greedy whitespace followed by a
newline, with backtracking — consumes up to and including the last newline of
the leading whitespace run, failing if that run holds no newline. -/
def wsNl : List Char → Option (List Char)
  | [] => none
  | c :: t =>
      if pySpace c then
        match wsNl t with
        | some r => some r
        | none => if c = '\n' then some t else none
      else none

/-- The text before the first (case-sensitive) occurrence of `needle`; `none`
when `needle` never occurs — the lazy `(.*?)` step before a literal. -/
def upto (needle : List Char) : List Char → Option (List Char)
  | [] => none
  | c :: t =>
      if begMatch needle (c :: t) then some [] else
        match upto needle t with
        | none => none
        | some r => some (c :: r)

/-- One attempt of the fence pattern `` ```html?\s*\n(.*?)``` `` anchored at
the start of `s`, returning the captured interior. -/
def attemptFence (s : List Char) : Option (List Char) :=
  match fenceTag s with
  | none => none
  | some rest =>
      match wsNl rest with
      | none => none
      | some rest2 => upto (str "```") rest2

/-- `re.search(r"```html?\s*\n(.*?)```", raw, re.DOTALL)`: leftmost start
position at which the fence pattern matches, returning the captured interior. -/
def fencedSearch : List Char → Option (List Char)
  | [] => none
  | c :: t =>
      match attemptFence (c :: t) with
      | some r => some r
      | none => fencedSearch t

/-- Longest prefix of `s` ending with a case-insensitive `</html>` (the greedy
`.*</html>` step): the span up to the end of the last `</html>` occurrence. -/
def greedySpan : List Char → Option (List Char)
  | [] => none
  | c :: t =>
      match greedySpan t with
      | some r => some (c :: r)
      | none =>
          if begMatchCI (str "</html>") (c :: t) then some (List.take 7 (c :: t))
          else none

/-- `re.search(r"(<!DOCTYPE html>.*</html>)", raw, re.DOTALL | re.IGNORECASE)`:
the span from the leftmost doctype declaration (that is followed by a closing
tag) to the end of the last subsequent `</html>`. -/
def docSearch : List Char → Option (List Char)
  | [] => none
  | c :: t =>
      if begMatchCI (str "<!doctype html>") (c :: t) then
        match greedySpan (List.drop 15 (c :: t)) with
        | some r => some (List.take 15 (c :: t) ++ r)
        | none => docSearch t
      else docSearch t

/-- Python `str.split("\n")`. -/
def splitNl : List Char → List (List Char)
  | [] => [[]]
  | c :: t =>
      if c = '\n' then [] :: splitNl t
      else
        match splitNl t with
        | [] => [[c]]
        | l :: ls => (c :: l) :: ls

/-- Python `"\n".join(lines)`. -/
def joinNl : List (List Char) → List Char
  | [] => []
  | [l] => l
  | l :: l2 :: ls => l ++ '\n' :: joinNl (l2 :: ls)

/-- `line.strip().lower().startswith("<!doctype") or .startswith("<html")`. -/
def lineStartsDoc (line : List Char) : Bool :=
  begMatch (str "<!doctype") (lowerStr (pyStrip line)) ||
  begMatch (str "<html") (lowerStr (pyStrip line))

/-- Index of the first line at which the fallback starts (`start` stays `0`
when no line matches). -/
def findStartFrom : Nat → List (List Char) → Option Nat
  | _, [] => none
  | i, l :: ls => if lineStartsDoc l then some i else findStartFrom (i + 1) ls

def findStart (lines : List (List Char)) : Nat := (findStartFrom 0 lines).getD 0

/-- The last-resort branch of `_extract_html`. -/
def fallbackExtract (raw : List Char) : List Char :=
  let lines := splitNl (pyStrip raw)
  pyStrip (joinNl (List.drop (findStart lines) lines))

/-- `code_generator._extract_html`: fenced block first, then bare document
span, then the line-scanning fallback. -/
def extract_html (raw : List Char) : List Char :=
  match fencedSearch raw with
  | some inner => pyStrip inner
  | none =>
      match docSearch raw with
      | some m => pyStrip m
      | none => fallbackExtract raw

/-! ## idea_generator.py -/

/-- `_get_existing_titles`: titles of all existing apps, lowercased at read
time (the per-metadata-file `data.get("title", "").lower()` collection). -/
def existingTitles (storedTitles : List (List Char)) : List (List Char) :=
  storedTitles.map lowerStr

/-- The error kinds `generate_idea` can raise (both are `ValueError` in the
source, distinguished by their message). -/
inductive IdeaError where
  | missingField (field : List Char)
  | duplicateIdea (title : List Char)
deriving DecidableEq

/-- A parsed idea with all four fields (the dict on success). -/
structure Idea where
  title : List Char
  description : List Char
  category : List Char
  slug : List Char
deriving DecidableEq

/-- Dictionary lookup on the parsed JSON object. -/
def lookupField (d : List (List Char × List Char)) (k : List Char) :
    Option (List Char) :=
  match d with
  | [] => none
  | (k2, v) :: t => if k2 = k then some v else lookupField t k

/-- `slug.replace(" ", "-")` character action. -/
def space2hyphen (c : Char) : Char := if c = ' ' then '-' else c

/-- Python `str.isalnum` (true iff the character is alphabetic, decimal,
digit, or numeric), exact on the ASCII and Latin-1 ranges: the digits,
`A`-`Z`, `a`-`z`, the Latin-1 letters `ª µ º À`-`Ö Ø`-`ö ø`-`ÿ` and the
numeric characters `² ³ ¹ ¼ ½ ¾`.  Alphanumerics above U+00FF (which the
program also keeps) are outside the modelled domain and treated as
non-alphanumeric. -/
def isAlnumCh (c : Char) : Bool :=
  decide ((48 ≤ c.toNat ∧ c.toNat ≤ 57) ∨ (65 ≤ c.toNat ∧ c.toNat ≤ 90) ∨
    (97 ≤ c.toNat ∧ c.toNat ≤ 122) ∨ c.toNat = 170 ∨ c.toNat = 178 ∨
    c.toNat = 179 ∨ c.toNat = 181 ∨ c.toNat = 185 ∨ c.toNat = 186 ∨
    (188 ≤ c.toNat ∧ c.toNat ≤ 190) ∨
    (192 ≤ c.toNat ∧ c.toNat ≤ 255 ∧ c.toNat ≠ 215 ∧ c.toNat ≠ 247))

/-- The slug sanitization of `generate_idea`:
`slug.lower().replace(" ", "-")` then keep only alphanumerics and hyphens. -/
def sanitizeSlug (s : List Char) : List Char :=
  ((lowerStr s).map space2hyphen).filter (fun c => isAlnumCh c || c = '-')

/-- The spec's wording of slug normalization (§4.5): lowercase, spaces to
hyphens, then strip every character that is not alphanumeric or hyphen. -/
def slugNormSpec (s : List Char) : List Char :=
  ((s.map lowerChar).map space2hyphen).filter (fun c => isAlnumCh c || c = '-')

/-- `generate_idea` after the backend response has been parsed into a JSON
object `parsed`: validate the four required fields (in source order), reject
a title that case-insensitively matches an existing title, sanitize the slug. -/
def generate_idea (storedTitles : List (List Char))
    (parsed : List (List Char × List Char)) : Except IdeaError Idea :=
  let existing := existingTitles storedTitles
  match lookupField parsed (str "title") with
  | none => Except.error (IdeaError.missingField (str "title"))
  | some title =>
    match lookupField parsed (str "description") with
    | none => Except.error (IdeaError.missingField (str "description"))
    | some description =>
      match lookupField parsed (str "category") with
      | none => Except.error (IdeaError.missingField (str "category"))
      | some category =>
        match lookupField parsed (str "slug") with
        | none => Except.error (IdeaError.missingField (str "slug"))
        | some slug =>
          if lowerStr title ∈ existing then
            Except.error (IdeaError.duplicateIdea title)
          else
            Except.ok ⟨title, description, category, sanitizeSlug slug⟩

/-! ## main.py — run_daily_cycle

The orchestrator's external calls are modelled by an environment: the outcome
of `generate_code` on each attempt, whether `generate_idea`, `update_index`
and `commit_app` succeed.  Sampling temperatures (Python floats combined only
by `+` and `*`) are modelled as rationals.  The persistence steps the cycle
performs are recorded as an action trace, and each executed generation
attempt is recorded with the temperature passed to it. -/

/-- Outcome of one `generate_code` call: an exception, or raw html. -/
inductive GenOutcome where
  | genError
  | genOk (html : List Char)

/-- The persistence steps of the success path of `run_daily_cycle`. -/
inductive Action where
  | writeHtml
  | writeMetadata
  | updateIndex
  | gitCommit
deriving DecidableEq

/-- Environment of one cycle: idea generation succeeds?, outcome of
generation per attempt number, `update_index` raises?, commit succeeds?. -/
structure CycleEnv where
  ideaOk : Bool
  gen : Nat → GenOutcome
  indexOk : Bool
  commitOk : Bool

/-- The generation section of the configuration. -/
structure GenConfig where
  max_retries : Nat
  temperature : ℚ
  temperature_increment : ℚ

/-- The temperature of attempt `n`:
`config.generation.temperature + (attempt - 1) * config.generation.temperature_increment`. -/
def attemptTemp (cfg : GenConfig) (n : Nat) : ℚ :=
  cfg.temperature + ((n - 1 : ℕ) : ℚ) * cfg.temperature_increment

/-- The retry loop from attempt `n` with `fuel` attempts remaining: returns
the trace of generation calls `(attempt, temperature)` and, on success, the
accepted html with the attempt index it succeeded on. -/
def attemptsFrom (env : CycleEnv) (cfg : GenConfig) :
    Nat → Nat → List (Nat × ℚ) × Option (List Char × Nat)
  | _, 0 => ([], none)
  | n, fuel + 1 =>
      match env.gen n with
      | GenOutcome.genError =>
          ((n, attemptTemp cfg n) :: (attemptsFrom env cfg (n + 1) fuel).1,
            (attemptsFrom env cfg (n + 1) fuel).2)
      | GenOutcome.genOk html =>
          if (validate_html html).1 then
            ([(n, attemptTemp cfg n)], some (html, n))
          else
            ((n, attemptTemp cfg n) :: (attemptsFrom env cfg (n + 1) fuel).1,
              (attemptsFrom env cfg (n + 1) fuel).2)

/-- `for attempt in range(1, max_retries + 1)`. -/
def runAttempts (env : CycleEnv) (cfg : GenConfig) :
    List (Nat × ℚ) × Option (List Char × Nat) :=
  attemptsFrom env cfg 1 cfg.max_retries

/-- Result of one cycle: the return value, the persistence actions performed,
and the generation calls made. -/
structure CycleResult where
  success : Bool
  actions : List Action
  calls : List (Nat × ℚ)
deriving DecidableEq

/-- `main.run_daily_cycle`: idea, then the retry loop, then — only on a
validated artifact — the persistence steps (file writes, index update,
commit), any of whose failures makes the cycle report failure. -/
def run_daily_cycle (env : CycleEnv) (cfg : GenConfig) : CycleResult :=
  if env.ideaOk = false then ⟨false, [], []⟩
  else
    match (runAttempts env cfg).2 with
    | none => ⟨false, [], (runAttempts env cfg).1⟩
    | some _ =>
        if env.indexOk = false then
          ⟨false, [Action.writeHtml, Action.writeMetadata, Action.updateIndex],
            (runAttempts env cfg).1⟩
        else
          ⟨env.commitOk,
            [Action.writeHtml, Action.writeMetadata, Action.updateIndex,
              Action.gitCommit], (runAttempts env cfg).1⟩

/-- The attempt fails: generation raised, or validation rejected. -/
def attemptFails (env : CycleEnv) (n : Nat) : Bool :=
  match env.gen n with
  | GenOutcome.genError => true
  | GenOutcome.genOk html => ! (validate_html html).1

/-- A cycle environment in which every generation attempt raises. -/
def envAllFail : CycleEnv :=
  ⟨true, fun _ => GenOutcome.genError, true, true⟩

/-- The default generation configuration (max_retries 3, base temperature
0.7, increment 0.1). -/
def cfgStd : GenConfig := ⟨3, 7/10, 1/10⟩

/-! ## Theorems -/

theorem sizeErrors_eq_nil (html : List Char) :
    sizeErrors html = [] ↔ sizeWithinBounds html := by
  unfold sizeErrors sizeWithinBounds
  split <;> split <;> simp <;> omega

theorem elementErrors_eq_nil (html : List Char) :
    elementErrors (lowerStr html) = [] ↔ hasAllRequiredElements html := by
  unfold elementErrors hasAllRequiredElements
  simp [List.filter_eq_nil_iff]

theorem closingErrors_eq_nil (html : List Char) :
    closingErrors (lowerStr html) = [] ↔ hasAllClosingTags html := by
  unfold closingErrors hasAllClosingTags
  simp [List.filter_eq_nil_iff]

theorem titleErrors_eq_nil (html : List Char) :
    titleErrors html = [] ↔ titleNonEmpty html := by
  unfold titleErrors titleNonEmpty
  cases h : titleSearch html with
  | none => simp [h]
  | some r => split <;> simp_all

theorem balanceErrors_eq_nil (html : List Char) :
    balanceErrors (lowerStr html) = [] ↔ balancedBlocks html := by
  unfold balanceErrors balancedBlocks
  simp only [List.filterMap_cons, List.filterMap_nil]
  split <;> split <;> simp_all [str]

/-- C1: `validate_html` returns accepted with an empty violation list iff the
document satisfies all structural rules — size within `[200, 500000]` bytes,
case-insensitive presence of the doctype and the html/head/title/body opening
tags, presence of the three closing tags, a title element with a non-empty
trimmed interior, and balanced open/close counts for style and script.  The
external-dependency heuristic of the source only logs and never appends to the
violation list, so it cannot contribute to rejection. -/
theorem validate_html_accepts_iff_rules (A : List Char) :
    validate_html A = (true, []) ↔
      sizeWithinBounds A ∧ hasAllRequiredElements A ∧ hasAllClosingTags A ∧
        titleNonEmpty A ∧ balancedBlocks A := by
  unfold validate_html
  have h : ∀ l : List (List Char),
      ((l.isEmpty, l) = ((true : Bool), ([] : List (List Char)))) ↔ l = [] := by
    intro l; cases l <;> simp
  rw [h]
  simp only [List.append_eq_nil]
  rw [sizeErrors_eq_nil, elementErrors_eq_nil, closingErrors_eq_nil,
    titleErrors_eq_nil, balanceErrors_eq_nil]
  tauto

theorem validate_errors_eq (A : List Char) :
    (validate_html A).2 =
      sizeErrors A ++ elementErrors (lowerStr A) ++ closingErrors (lowerStr A) ++
        titleErrors A ++ balanceErrors (lowerStr A) := rfl

theorem mem_validate_of_component {A e : List Char}
    (h : e ∈ sizeErrors A ∨ e ∈ elementErrors (lowerStr A) ∨
      e ∈ closingErrors (lowerStr A) ∨ e ∈ titleErrors A ∨
      e ∈ balanceErrors (lowerStr A)) :
    e ∈ (validate_html A).2 := by
  rw [validate_errors_eq]
  simp only [List.mem_append]
  tauto

theorem mem_sizeErrors_small {A : List Char} (h : byteSize A < MIN_FILE_SIZE) :
    msgTooSmall (byteSize A) ∈ sizeErrors A := by
  unfold sizeErrors
  rw [if_pos h]
  simp

theorem mem_sizeErrors_large {A : List Char} (h : byteSize A > MAX_FILE_SIZE) :
    msgTooLarge (byteSize A) ∈ sizeErrors A := by
  unfold sizeErrors
  rw [if_pos h]
  simp

theorem mem_elementErrors {A el : List Char} (hel : el ∈ REQUIRED_ELEMENTS)
    (h : hasSub el (lowerStr A) = false) :
    msgMissingElement el ∈ elementErrors (lowerStr A) := by
  unfold elementErrors
  exact List.mem_map_of_mem _ (List.mem_filter.mpr ⟨hel, by simp [h]⟩)

theorem mem_closingErrors {A t : List Char} (ht : t ∈ closingTags)
    (h : hasSub t (lowerStr A) = false) :
    msgMissingClosing t ∈ closingErrors (lowerStr A) := by
  unfold closingErrors
  exact List.mem_map_of_mem _ (List.mem_filter.mpr ⟨ht, by simp [h]⟩)

theorem mem_titleErrors_none {A : List Char} (h : titleSearch A = none) :
    msgNoTitle ∈ titleErrors A := by
  unfold titleErrors
  rw [h]
  simp

theorem mem_titleErrors_empty {A r : List Char} (h : titleSearch A = some r)
    (he : (pyStrip r).isEmpty = true) :
    msgEmptyTitle ∈ titleErrors A := by
  unfold titleErrors
  rw [h]
  simp [he]

theorem mem_balanceErrors {A tag : List Char}
    (htag : tag ∈ [str "script", str "style"])
    (h : countOpenTag tag (lowerStr A) ≠
      countSub (str "</" ++ tag ++ str ">") (lowerStr A)) :
    msgMismatched tag (countOpenTag tag (lowerStr A))
        (countSub (str "</" ++ tag ++ str ">") (lowerStr A)) ∈
      balanceErrors (lowerStr A) := by
  unfold balanceErrors
  refine List.mem_filterMap.mpr ⟨tag, htag, ?_⟩
  simp only []
  rw [if_pos h]

/-- C6: `validate_html` evaluates every rule with no short-circuit: on any
artifact whose lowercased text lacks `</body>`, the violation list contains
the missing-closing-body-tag violation together with every other violation
whose rule condition independently holds. -/
theorem validate_html_no_short_circuit (A : List Char)
    (hbody : hasSub (str "</body>") (lowerStr A) = false) :
    msgMissingClosing (str "</body>") ∈ (validate_html A).2 ∧
    (byteSize A < MIN_FILE_SIZE → msgTooSmall (byteSize A) ∈ (validate_html A).2) ∧
    (byteSize A > MAX_FILE_SIZE → msgTooLarge (byteSize A) ∈ (validate_html A).2) ∧
    (∀ el ∈ REQUIRED_ELEMENTS, hasSub el (lowerStr A) = false →
      msgMissingElement el ∈ (validate_html A).2) ∧
    (∀ t ∈ closingTags, hasSub t (lowerStr A) = false →
      msgMissingClosing t ∈ (validate_html A).2) ∧
    (titleSearch A = none → msgNoTitle ∈ (validate_html A).2) ∧
    (∀ r, titleSearch A = some r → (pyStrip r).isEmpty = true →
      msgEmptyTitle ∈ (validate_html A).2) ∧
    (∀ tag ∈ [str "script", str "style"],
      countOpenTag tag (lowerStr A) ≠
        countSub (str "</" ++ tag ++ str ">") (lowerStr A) →
      msgMismatched tag (countOpenTag tag (lowerStr A))
          (countSub (str "</" ++ tag ++ str ">") (lowerStr A)) ∈
        (validate_html A).2) := by
  refine ⟨?_, ?_, ?_, ?_, ?_, ?_, ?_, ?_⟩
  · exact mem_validate_of_component
      (Or.inr (Or.inr (Or.inl (mem_closingErrors (by simp [closingTags]) hbody))))
  · intro h
    exact mem_validate_of_component (Or.inl (mem_sizeErrors_small h))
  · intro h
    exact mem_validate_of_component (Or.inl (mem_sizeErrors_large h))
  · intro el hel h
    exact mem_validate_of_component (Or.inr (Or.inl (mem_elementErrors hel h)))
  · intro t ht h
    exact mem_validate_of_component (Or.inr (Or.inr (Or.inl (mem_closingErrors ht h))))
  · intro h
    exact mem_validate_of_component
      (Or.inr (Or.inr (Or.inr (Or.inl (mem_titleErrors_none h)))))
  · intro r h he
    exact mem_validate_of_component
      (Or.inr (Or.inr (Or.inr (Or.inl (mem_titleErrors_empty h he)))))
  · intro tag htag h
    exact mem_validate_of_component
      (Or.inr (Or.inr (Or.inr (Or.inr (mem_balanceErrors htag h)))))

/-- Witness for C6 at the concrete artifact `"y"` (which lacks `</body>`). -/
theorem validate_html_no_short_circuit_witness :
    msgMissingClosing (str "</body>") ∈ (validate_html (str "y")).2 :=
  (validate_html_no_short_circuit (str "y") (by decide)).1

theorem begMatch_of_begMatch_append {n1 n2 s : List Char}
    (h : begMatch (n1 ++ n2) s = true) : begMatch n1 s = true := by
  induction n1 generalizing s with
  | nil => rfl
  | cons a n ih =>
    cases s with
    | nil => simp [begMatch] at h
    | cons b t =>
      simp only [List.cons_append, begMatch, Bool.and_eq_true] at h ⊢
      exact ⟨h.1, ih h.2⟩

/-- If `<title` never occurs (case-insensitively), the title regex finds no
match at all. -/
theorem titleSearch_eq_none {A : List Char}
    (h : hasSub (str "<title") (lowerStr A) = false) : titleSearch A = none := by
  induction A with
  | nil => rfl
  | cons c t ih =>
    have hl : lowerStr (c :: t) = lowerChar c :: lowerStr t := rfl
    rw [hl, hasSub, Bool.or_eq_false_iff] at h
    have hbm : begMatchCI (str "<title>") (c :: t) = false := by
      by_contra hcontra
      have htrue : begMatch (str "<title>") (lowerStr (c :: t)) = true := by
        unfold begMatchCI at hcontra
        exact eq_true_of_ne_false hcontra
      have hbeg : begMatch (str "<title") (lowerStr (c :: t)) = true := by
        have hsplit : str "<title>" = str "<title" ++ [ '>' ] := rfl
        rw [hsplit] at htrue
        exact begMatch_of_begMatch_append htrue
      rw [hl] at hbeg
      have hfalse := h.1
      rw [hbeg] at hfalse
      exact Bool.noConfusion hfalse
    rw [titleSearch, hbm]
    simp only [Bool.false_eq_true, if_false]
    exact ih h.2

/-- C9: the no-title-element rule is distinct from and in addition to the
required-substring check on `<title`: a document lacking `<title` entirely
gets both the missing-required-element violation and the
"No <title> element found" violation, as two distinct entries. -/
theorem title_rules_both_fire (A : List Char)
    (h : hasSub (str "<title") (lowerStr A) = false) :
    msgMissingElement (str "<title") ∈ (validate_html A).2 ∧
    msgNoTitle ∈ (validate_html A).2 ∧
    msgMissingElement (str "<title") ≠ msgNoTitle := by
  refine ⟨?_, ?_, by decide⟩
  · exact mem_validate_of_component
      (Or.inr (Or.inl (mem_elementErrors (by simp [REQUIRED_ELEMENTS]) h)))
  · exact mem_validate_of_component
      (Or.inr (Or.inr (Or.inr (Or.inl (mem_titleErrors_none (titleSearch_eq_none h))))))

/-- Witness for C9 at the concrete artifact `"z"` (which lacks `<title`). -/
theorem title_rules_both_fire_witness :
    msgMissingElement (str "<title") ∈ (validate_html (str "z")).2 ∧
    msgNoTitle ∈ (validate_html (str "z")).2 ∧
    msgMissingElement (str "<title") ≠ msgNoTitle :=
  title_rules_both_fire (str "z") (by decide)

/-- C3: extraction heuristics are ordered with first match winning — when the
fenced-block pattern matches (capturing `inner`), `_extract_html` returns the
trimmed fence interior, even though a bare doctype declaration and a closing
`</html>` also occur in the raw text. -/
theorem extract_html_fenced_first (raw inner : List Char)
    (hf : fencedSearch raw = some inner)
    (_hdoc : hasSub (str "<!doctype html>") (lowerStr raw) = true)
    (_hclose : hasSub (str "</html>") (lowerStr raw) = true) :
    extract_html raw = pyStrip inner := by
  unfold extract_html
  rw [hf]

/-- Witness for C3: a raw response holding both a fenced block and a bare
document; extraction returns the fence interior, not the document span. -/
theorem extract_html_fenced_first_witness :
    extract_html (str "```html\n<p>hi</p>\n```\n<!doctype html><body></body></html>") =
      str "<p>hi</p>" :=
  (extract_html_fenced_first
    (str "```html\n<p>hi</p>\n```\n<!doctype html><body></body></html>")
    (str "<p>hi</p>\n") (by decide) (by decide) (by decide)).trans (by decide)

theorem dropWhile_idem (p : Char → Bool) (l : List Char) :
    List.dropWhile p (List.dropWhile p l) = List.dropWhile p l := by
  induction l with
  | nil => rfl
  | cons a t ih =>
    by_cases h : p a
    · simp [List.dropWhile_cons, h, ih]
    · simp [List.dropWhile_cons, h]

theorem getLast?_dropWhile (p : Char → Bool) (l : List Char)
    (h : List.dropWhile p l ≠ []) :
    (List.dropWhile p l).getLast? = l.getLast? := by
  obtain ⟨pre, hpre⟩ := List.dropWhile_suffix (l := l) p
  conv_rhs => rw [← hpre]
  rw [List.getLast?_append]
  obtain ⟨x, hx⟩ := Option.isSome_iff_exists.mp (List.getLast?_isSome.mpr h)
  rw [hx]
  rfl

theorem head?_dropWhile_not (p : Char → Bool) (l : List Char) (c : Char)
    (hc : (List.dropWhile p l).head? = some c) : p c = false := by
  induction l with
  | nil => simp at hc
  | cons a t ih =>
    rw [List.dropWhile_cons] at hc
    by_cases h : p a
    · rw [if_pos h] at hc
      exact ih hc
    · rw [if_neg h] at hc
      simp only [List.head?_cons, Option.some.injEq] at hc
      subst hc
      cases hb : p a with
      | false => rfl
      | true => exact absurd hb h

theorem pyStrip_idem (s : List Char) : pyStrip (pyStrip s) = pyStrip s := by
  by_cases hR : List.dropWhile pySpace (List.dropWhile pySpace s).reverse = []
  · have hs : pyStrip s = [] := by
      unfold pyStrip
      rw [hR]
      rfl
    rw [hs]
    rfl
  · have hL : List.dropWhile pySpace s ≠ [] := by
      intro hnil
      apply hR
      rw [hnil]
      rfl
    have hLrev : (List.dropWhile pySpace s).reverse ≠ [] := by
      simpa using hL
    have hRrev : ((List.dropWhile pySpace s).reverse.dropWhile pySpace).reverse ≠ [] := by
      simpa using hR
    obtain ⟨c, rest, hcr⟩ := List.exists_cons_of_ne_nil hRrev
    -- the head of the stripped result does not satisfy pySpace
    have hc : pySpace c = false := by
      apply head?_dropWhile_not pySpace s c
      have h1 : (List.dropWhile pySpace (List.dropWhile pySpace s).reverse).getLast? =
          some c := by
        rw [← List.head?_reverse, hcr]
        rfl
      rw [getLast?_dropWhile pySpace _ hR, List.getLast?_reverse] at h1
      exact h1
    have hdrop : List.dropWhile pySpace (c :: rest) = c :: rest := by
      rw [List.dropWhile_cons, if_neg (by simp [hc])]
    show pyStrip (((List.dropWhile pySpace s).reverse.dropWhile pySpace).reverse) = _
    unfold pyStrip
    rw [hcr, hdrop, ← hcr, List.reverse_reverse, dropWhile_idem]

theorem splitNl_ne_nil (s : List Char) : splitNl s ≠ [] := by
  cases s with
  | nil => simp [splitNl]
  | cons c t =>
    rw [splitNl]
    by_cases h : c = '\n'
    · simp [h]
    · rw [if_neg h]
      cases splitNl t <;> simp

theorem joinNl_cons_cons (c : Char) (l : List Char) (ls : List (List Char)) :
    joinNl ((c :: l) :: ls) = c :: joinNl (l :: ls) := by
  cases ls <;> rfl

theorem joinNl_splitNl (s : List Char) : joinNl (splitNl s) = s := by
  induction s with
  | nil => rfl
  | cons c t ih =>
    obtain ⟨l, ls, he⟩ := List.exists_cons_of_ne_nil (splitNl_ne_nil t)
    by_cases h : c = '\n'
    · subst h
      rw [splitNl, if_pos rfl, he]
      show ([] : List Char) ++ '\n' :: joinNl (l :: ls) = _
      rw [← he, ih]
      rfl
    · rw [splitNl, if_neg h, he, joinNl_cons_cons, ← he, ih]

theorem findStartFrom_eq_none {lines : List (List Char)}
    (h : lines.all (fun line => ! lineStartsDoc line) = true) (i : Nat) :
    findStartFrom i lines = none := by
  induction lines generalizing i with
  | nil => rfl
  | cons l ls ih =>
    simp only [List.all_cons, Bool.and_eq_true, Bool.not_eq_true'] at h
    rw [findStartFrom, if_neg (by simp [h.1])]
    exact ih (by simpa using h.2) (i + 1)

/-- C4 as stated is false: on an input with surrounding whitespace and no
extraction match, `_extract_html` strips the input rather than returning it
unmodified. -/
theorem extract_html_no_match_counterexample :
    fencedSearch (str " hello ") = none ∧
    docSearch (str " hello ") = none ∧
    (splitNl (pyStrip (str " hello "))).all (fun line => ! lineStartsDoc line) = true ∧
    extract_html (str " hello ") ≠ str " hello " := by decide

/-- C4 (amended): when no fenced block matches, no doctype-to-`</html>` span
matches, and no line starts (after trimming and lowercasing) with the doctype
token or `<html`, `_extract_html` returns the input with leading and trailing
whitespace stripped (so the input is returned unmodified exactly when it has
no surrounding whitespace). -/
theorem extract_html_no_match_strips (raw : List Char)
    (hf : fencedSearch raw = none)
    (hd : docSearch raw = none)
    (hl : (splitNl (pyStrip raw)).all (fun line => ! lineStartsDoc line) = true) :
    extract_html raw = pyStrip raw := by
  unfold extract_html
  rw [hf, hd]
  show pyStrip (joinNl (List.drop ((findStartFrom 0 (splitNl (pyStrip raw))).getD 0)
      (splitNl (pyStrip raw)))) = pyStrip raw
  rw [findStartFrom_eq_none hl]
  show pyStrip (joinNl (List.drop 0 (splitNl (pyStrip raw)))) = pyStrip raw
  rw [List.drop_zero, joinNl_splitNl, pyStrip_idem]

/-- Witness for the amended C4 at the concrete input `" hello "`. -/
theorem extract_html_no_match_strips_witness :
    extract_html (str " hello ") = pyStrip (str " hello ") :=
  extract_html_no_match_strips (str " hello ") (by decide) (by decide) (by decide)

/-- C7: `generate_idea` raises the duplicate-idea error whenever the parsed
idea is well-formed and its title, lowercased, matches an existing title from
the snapshot read at call time; no retry happens at this layer — the call
simply returns the error. -/
theorem generate_idea_duplicate (storedTitles : List (List Char))
    (parsed : List (List Char × List Char)) (title : List Char)
    (htitle : lookupField parsed (str "title") = some title)
    (hdesc : (lookupField parsed (str "description")).isSome = true)
    (hcat : (lookupField parsed (str "category")).isSome = true)
    (hslug : (lookupField parsed (str "slug")).isSome = true)
    (hdup : lowerStr title ∈ existingTitles storedTitles) :
    generate_idea storedTitles parsed =
      Except.error (IdeaError.duplicateIdea title) := by
  obtain ⟨d, hd⟩ := Option.isSome_iff_exists.mp hdesc
  obtain ⟨ca, hca⟩ := Option.isSome_iff_exists.mp hcat
  obtain ⟨sl, hsl⟩ := Option.isSome_iff_exists.mp hslug
  unfold generate_idea
  rw [htitle, hd, hca, hsl]
  show (if lowerStr title ∈ existingTitles storedTitles then
      Except.error (IdeaError.duplicateIdea title)
    else Except.ok ⟨title, d, ca, sanitizeSlug sl⟩) =
    (Except.error (IdeaError.duplicateIdea title) : Except IdeaError Idea)
  rw [if_pos hdup]

/-- Witness for C7: existing title "tic tac toe", generated title
"Tic Tac Toe" — rejected as a duplicate. -/
theorem generate_idea_duplicate_witness :
    generate_idea [str "tic tac toe"]
      [(str "title", str "Tic Tac Toe"), (str "description", str "A game"),
       (str "category", str "game"), (str "slug", str "tic-tac-toe")] =
      Except.error (IdeaError.duplicateIdea (str "Tic Tac Toe")) :=
  generate_idea_duplicate [str "tic tac toe"]
    [(str "title", str "Tic Tac Toe"), (str "description", str "A game"),
     (str "category", str "game"), (str "slug", str "tic-tac-toe")]
    (str "Tic Tac Toe") (by decide) (by decide) (by decide) (by decide) (by decide)

/-- C8: slug normalization lowercases, converts spaces to hyphens, then drops
every character that is not alphanumeric or a hyphen (the spec's three-step
pipeline), and "My Cool App!!" normalizes to "my-cool-app". -/
theorem sanitizeSlug_spec :
    (∀ s, sanitizeSlug s = slugNormSpec s) ∧
    sanitizeSlug (str "My Cool App!!") = str "my-cool-app" :=
  ⟨fun _ => rfl, by decide⟩

theorem toNat_ofNat_shift {n : Nat}
    (h : (65 ≤ n ∧ n ≤ 90) ∨ (192 ≤ n ∧ n ≤ 222)) :
    (Char.ofNat (n + 32)).toNat = n + 32 := by
  rcases h with ⟨h1, h2⟩ | ⟨h1, h2⟩ <;> interval_cases n <;> decide

/-- The character is an ASCII or Latin-1 uppercase letter (the domain on
which the modelled lowercasing acts). -/
def isUpperLike (c : Char) : Bool :=
  decide ((65 ≤ c.toNat ∧ c.toNat ≤ 90) ∨
    (192 ≤ c.toNat ∧ c.toNat ≤ 222 ∧ c.toNat ≠ 215))

theorem lowerChar_idem (c : Char) : lowerChar (lowerChar c) = lowerChar c := by
  by_cases h : (65 ≤ c.toNat ∧ c.toNat ≤ 90) ∨
      (192 ≤ c.toNat ∧ c.toNat ≤ 222 ∧ c.toNat ≠ 215)
  · have hc : lowerChar c = Char.ofNat (c.toNat + 32) := by
      unfold lowerChar
      rw [if_pos h]
    have ht : (Char.ofNat (c.toNat + 32)).toNat = c.toNat + 32 := by
      apply toNat_ofNat_shift
      rcases h with ⟨h1, h2⟩ | ⟨h1, h2, h3⟩
      · exact Or.inl ⟨h1, h2⟩
      · exact Or.inr ⟨h1, h2⟩
    have hneg : ¬((65 ≤ (Char.ofNat (c.toNat + 32)).toNat ∧
        (Char.ofNat (c.toNat + 32)).toNat ≤ 90) ∨
        (192 ≤ (Char.ofNat (c.toNat + 32)).toNat ∧
          (Char.ofNat (c.toNat + 32)).toNat ≤ 222 ∧
          (Char.ofNat (c.toNat + 32)).toNat ≠ 215)) := by
      rw [ht]
      rcases h with ⟨h1, h2⟩ | ⟨h1, h2, h3⟩ <;> omega
    rw [hc]
    unfold lowerChar
    rw [if_neg hneg]
  · have hc : lowerChar c = c := by
      unfold lowerChar
      rw [if_neg h]
    rw [hc, hc]

theorem lowerChar_not_upperLike (c : Char) :
    isUpperLike (lowerChar c) = false := by
  unfold isUpperLike
  rw [decide_eq_false_iff_not]
  unfold lowerChar
  split
  · rename_i h
    have ht : (Char.ofNat (c.toNat + 32)).toNat = c.toNat + 32 := by
      apply toNat_ofNat_shift
      rcases h with ⟨h1, h2⟩ | ⟨h1, h2, h3⟩
      · exact Or.inl ⟨h1, h2⟩
      · exact Or.inr ⟨h1, h2⟩
    rw [ht]
    rcases h with ⟨h1, h2⟩ | ⟨h1, h2, h3⟩ <;> omega
  · rename_i h
    exact h

theorem lowerChar_s2h_lower (x : Char) :
    lowerChar (space2hyphen (lowerChar x)) = space2hyphen (lowerChar x) := by
  unfold space2hyphen
  split
  · decide
  · exact lowerChar_idem x

theorem upperLike_s2h_lower (x : Char) :
    isUpperLike (space2hyphen (lowerChar x)) = false := by
  unfold space2hyphen
  split
  · decide
  · exact lowerChar_not_upperLike x

/-- The output alphabet named by the claim: ASCII lowercase letters, digits,
and the hyphen. -/
def slugOutChar (c : Char) : Bool :=
  (97 ≤ c.toNat && c.toNat ≤ 122) || (48 ≤ c.toNat && c.toNat ≤ 57) || c = '-'

/-- Every character of a sanitized slug passed the keep-filter and is the
image of some input character under lowercasing and space-to-hyphen. -/
theorem mem_sanitizeSlug_shape {s : List Char} {c : Char}
    (hc : c ∈ sanitizeSlug s) :
    (isAlnumCh c || c = '-') = true ∧
      ∃ x ∈ s, c = space2hyphen (lowerChar x) := by
  unfold sanitizeSlug at hc
  have hk := (List.mem_filter.mp hc).2
  have hmem := (List.mem_filter.mp hc).1
  obtain ⟨b, hbmem, hb⟩ := List.mem_map.mp hmem
  unfold lowerStr at hbmem
  obtain ⟨x, hxmem, hx⟩ := List.mem_map.mp hbmem
  exact ⟨hk, x, hxmem, by rw [← hb, ← hx]⟩

theorem map_eq_self_of_forall {f : Char → Char} {l : List Char}
    (h : ∀ c ∈ l, f c = c) : l.map f = l := by
  induction l with
  | nil => rfl
  | cons a t ih =>
    rw [List.map_cons, h a (List.mem_cons_self a t),
      ih (fun c hc => h c (List.mem_cons_of_mem a hc))]

theorem slugOutChar_of_ascii {c : Char}
    (hk : (isAlnumCh c || c = '-') = true)
    (hup : isUpperLike c = false) (hA : c.toNat ≤ 127) :
    slugOutChar c = true := by
  by_cases hd : c = '-'
  · subst hd
    decide
  · have hk2 : isAlnumCh c = true := by
      have h2 : isAlnumCh c = true ∨ c = '-' := by simpa using hk
      rcases h2 with h | h
      · exact h
      · exact absurd h hd
    unfold isAlnumCh at hk2
    rw [decide_eq_true_eq] at hk2
    have hup2 : ¬((65 ≤ c.toNat ∧ c.toNat ≤ 90) ∨
        (192 ≤ c.toNat ∧ c.toNat ≤ 222 ∧ c.toNat ≠ 215)) := by
      unfold isUpperLike at hup
      rwa [decide_eq_false_iff_not] at hup
    unfold slugOutChar
    simp only [Bool.or_eq_true, Bool.and_eq_true, decide_eq_true_eq]
    rcases hk2 with h | h | h | h | h | h | h | h | h | h | h
    · exact Or.inl (Or.inr h)
    · exact absurd (Or.inl h) hup2
    · exact Or.inl (Or.inl h)
    · exact absurd hA (by omega)
    · exact absurd hA (by omega)
    · exact absurd hA (by omega)
    · exact absurd hA (by omega)
    · exact absurd hA (by omega)
    · exact absurd hA (by omega)
    · exact absurd hA (by omega)
    · exact absurd hA (by omega)

/-- C10's output-alphabet invariant is false of the program: Python's
`str.isalnum` is Unicode-wide, so the non-ASCII lowercase letter `é` survives
sanitization — "Café" sanitizes to "café", which is not within the
lowercase-ASCII-alphanumeric-or-hyphen alphabet. -/
theorem sanitizeSlug_alphabet_counterexample :
    sanitizeSlug (str "Café") = str "café" ∧
    (sanitizeSlug (str "Café")).all slugOutChar = false := by decide

/-- C10 (amended): slug normalization is idempotent; every output character
is an alphanumeric or a hyphen and is never an ASCII or Latin-1 uppercase
letter; and for ASCII inputs the output alphabet is exactly lowercase ASCII
letters, digits, and hyphens.  (The original all-input lowercase-ASCII
alphabet fails: non-ASCII alphanumerics such as `é` survive the filter.) -/
theorem sanitizeSlug_idem_ascii_alphabet (s : List Char) :
    sanitizeSlug (sanitizeSlug s) = sanitizeSlug s ∧
    (sanitizeSlug s).all
      (fun c => (isAlnumCh c || c = '-') && !(isUpperLike c)) = true ∧
    (s.all (fun c => c.toNat ≤ 127) = true →
      (sanitizeSlug s).all slugOutChar = true) := by
  refine ⟨?_, ?_, ?_⟩
  · have hlower : (sanitizeSlug s).map lowerChar = sanitizeSlug s := by
      apply map_eq_self_of_forall
      intro c hc
      obtain ⟨_, x, _, hx⟩ := mem_sanitizeSlug_shape hc
      rw [hx]
      exact lowerChar_s2h_lower x
    have hhyph : (sanitizeSlug s).map space2hyphen = sanitizeSlug s := by
      apply map_eq_self_of_forall
      intro c hc
      obtain ⟨hk, _, _, _⟩ := mem_sanitizeSlug_shape hc
      unfold space2hyphen
      rw [if_neg]
      intro he
      rw [he] at hk
      exact absurd hk (by decide)
    have hfil : (sanitizeSlug s).filter (fun c => isAlnumCh c || c = '-') =
        sanitizeSlug s := by
      rw [List.filter_eq_self]
      intro c hc
      exact (mem_sanitizeSlug_shape hc).1
    show ((lowerStr (sanitizeSlug s)).map space2hyphen).filter
        (fun c => isAlnumCh c || c = '-') = sanitizeSlug s
    rw [show lowerStr (sanitizeSlug s) = (sanitizeSlug s).map lowerChar from rfl]
    rw [hlower, hhyph, hfil]
  · rw [List.all_eq_true]
    intro c hc
    obtain ⟨hk, x, _, hx⟩ := mem_sanitizeSlug_shape hc
    rw [Bool.and_eq_true, Bool.not_eq_true']
    refine ⟨hk, ?_⟩
    rw [hx]
    exact upperLike_s2h_lower x
  · intro hA
    rw [List.all_eq_true] at hA ⊢
    intro c hc
    obtain ⟨hk, x, hxmem, hx⟩ := mem_sanitizeSlug_shape hc
    have hxA : x.toNat ≤ 127 := by simpa using hA x hxmem
    have hcA : c.toNat ≤ 127 := by
      rw [hx]
      unfold space2hyphen
      split
      · decide
      · unfold lowerChar
        split
        · rename_i h
          have ht : (Char.ofNat (x.toNat + 32)).toNat = x.toNat + 32 := by
            apply toNat_ofNat_shift
            rcases h with ⟨h1, h2⟩ | ⟨h1, h2, h3⟩
            · exact Or.inl ⟨h1, h2⟩
            · exact absurd hxA (by omega)
          rw [ht]
          rcases h with ⟨h1, h2⟩ | ⟨h1, h2, h3⟩ <;> omega
        · exact hxA
    have hup : isUpperLike c = false := by
      rw [hx]
      exact upperLike_s2h_lower x
    exact slugOutChar_of_ascii hk hup hcA

/-- Witness for the amended C10 at the ASCII input "My App 2!". -/
theorem sanitizeSlug_idem_ascii_alphabet_witness :
    sanitizeSlug (sanitizeSlug (str "My App 2!")) = sanitizeSlug (str "My App 2!") ∧
    (sanitizeSlug (str "My App 2!")).all slugOutChar = true :=
  ⟨(sanitizeSlug_idem_ascii_alphabet (str "My App 2!")).1,
   (sanitizeSlug_idem_ascii_alphabet (str "My App 2!")).2.2 (by decide)⟩

theorem attemptsFrom_none (env : CycleEnv) (cfg : GenConfig) (fuel : Nat) :
    ∀ n, (∀ k, n ≤ k → k < n + fuel → attemptFails env k = true) →
    (attemptsFrom env cfg n fuel).2 = none := by
  induction fuel with
  | zero => intro n _; rfl
  | succ f ih =>
    intro n h
    have hn := h n (le_refl n) (by omega)
    unfold attemptFails at hn
    unfold attemptsFrom
    cases hg : env.gen n with
    | genError =>
      simp only [hg]
      exact ih (n + 1) (fun k h1 h2 => h k (by omega) (by omega))
    | genOk html =>
      rw [hg] at hn
      simp only [hg]
      rw [if_neg (by simp_all)]
      exact ih (n + 1) (fun k h1 h2 => h k (by omega) (by omega))

theorem attemptsFrom_some (env : CycleEnv) (cfg : GenConfig) (fuel : Nat) :
    ∀ n html m, (attemptsFrom env cfg n fuel).2 = some (html, m) →
    n ≤ m ∧ m < n + fuel ∧ env.gen m = GenOutcome.genOk html ∧
      (validate_html html).1 = true := by
  induction fuel with
  | zero =>
    intro n html m h
    exact absurd h (by simp [attemptsFrom])
  | succ f ih =>
    intro n html m h
    unfold attemptsFrom at h
    cases hg : env.gen n with
    | genError =>
      rw [hg] at h
      simp only [] at h
      obtain ⟨h1, h2, h3, h4⟩ := ih (n + 1) html m h
      exact ⟨by omega, by omega, h3, h4⟩
    | genOk html2 =>
      rw [hg] at h
      simp only [] at h
      by_cases hv : (validate_html html2).1 = true
      · rw [if_pos hv] at h
        simp only [Option.some.injEq, Prod.mk.injEq] at h
        obtain ⟨he1, he2⟩ := h
        subst he1
        subst he2
        exact ⟨le_refl _, by omega, hg, hv⟩
      · rw [if_neg hv] at h
        simp only [] at h
        obtain ⟨h1, h2, h3, h4⟩ := ih (n + 1) html m h
        exact ⟨by omega, by omega, h3, h4⟩

theorem attemptsFrom_calls (env : CycleEnv) (cfg : GenConfig) (fuel : Nat) :
    ∀ n m t, (m, t) ∈ (attemptsFrom env cfg n fuel).1 →
    t = attemptTemp cfg m := by
  induction fuel with
  | zero =>
    intro n m t h
    simp [attemptsFrom] at h
  | succ f ih =>
    intro n m t h
    unfold attemptsFrom at h
    cases hg : env.gen n with
    | genError =>
      rw [hg] at h
      simp only [List.mem_cons, Prod.mk.injEq] at h
      rcases h with ⟨he1, he2⟩ | h
      · subst he1
        exact he2
      · exact ih (n + 1) m t h
    | genOk html =>
      rw [hg] at h
      simp only [] at h
      by_cases hv : (validate_html html).1 = true
      · rw [if_pos hv] at h
        simp only [List.mem_singleton, Prod.mk.injEq] at h
        obtain ⟨he1, he2⟩ := h
        subst he1
        exact he2
      · rw [if_neg hv] at h
        simp only [List.mem_cons, Prod.mk.injEq] at h
        rcases h with ⟨he1, he2⟩ | h
        · subst he1
          exact he2
        · exact ih (n + 1) m t h

/-- C2: persistence steps are performed only when some attempt's artifact
passed `validate_html`; when every attempt in `1..max_retries` fails
(generation error or validation rejection), the cycle returns failure and
performs no persistence step. -/
theorem run_daily_cycle_persistence_gate (env : CycleEnv) (cfg : GenConfig) :
    ((∀ n, 1 ≤ n → n ≤ cfg.max_retries → attemptFails env n = true) →
      (run_daily_cycle env cfg).success = false ∧
      (run_daily_cycle env cfg).actions = []) ∧
    (∀ a, a ∈ (run_daily_cycle env cfg).actions →
      ∃ n html, 1 ≤ n ∧ n ≤ cfg.max_retries ∧
        env.gen n = GenOutcome.genOk html ∧ (validate_html html).1 = true) := by
  constructor
  · intro hfail
    unfold run_daily_cycle
    by_cases hi : env.ideaOk = false
    · rw [if_pos hi]
      exact ⟨rfl, rfl⟩
    · rw [if_neg hi]
      have hnone : (runAttempts env cfg).2 = none :=
        attemptsFrom_none env cfg cfg.max_retries 1
          (fun k h1 h2 => hfail k h1 (by omega))
      rw [hnone]
      exact ⟨rfl, rfl⟩
  · intro a ha
    unfold run_daily_cycle at ha
    by_cases hi : env.ideaOk = false
    · rw [if_pos hi] at ha
      simp at ha
    · rw [if_neg hi] at ha
      cases hr : (runAttempts env cfg).2 with
      | none =>
        rw [hr] at ha
        simp at ha
      | some p =>
        obtain ⟨html, m⟩ := p
        have h := attemptsFrom_some env cfg cfg.max_retries 1 html m hr
        exact ⟨m, html, h.1, by omega, h.2.2.1, h.2.2.2⟩

/-- Witness for C2: with every attempt raising a generation error, the cycle
fails and performs no persistence step. -/
theorem run_daily_cycle_persistence_gate_witness :
    (run_daily_cycle envAllFail cfgStd).success = false ∧
    (run_daily_cycle envAllFail cfgStd).actions = [] :=
  (run_daily_cycle_persistence_gate envAllFail cfgStd).1 (fun _ _ _ => rfl)

/-- C5: every generation call of a cycle made on attempt `n` is passed the
temperature `base + (n - 1) * increment`; with base `0.7` and increment
`0.1`, attempts 1..3 get `0.7`, `0.8`, `0.9`. -/
theorem temperature_escalation (env : CycleEnv) (cfg : GenConfig) :
    (∀ m t, (m, t) ∈ (run_daily_cycle env cfg).calls →
      t = cfg.temperature + ((m - 1 : ℕ) : ℚ) * cfg.temperature_increment) ∧
    (attemptTemp cfgStd 1 = 7/10 ∧ attemptTemp cfgStd 2 = 8/10 ∧
      attemptTemp cfgStd 3 = 9/10) := by
  constructor
  · intro m t hm
    unfold run_daily_cycle at hm
    by_cases hi : env.ideaOk = false
    · rw [if_pos hi] at hm
      simp at hm
    · rw [if_neg hi] at hm
      have hcalls : t = attemptTemp cfg m := by
        cases hr : (runAttempts env cfg).2 with
        | none =>
          rw [hr] at hm
          exact attemptsFrom_calls env cfg cfg.max_retries 1 m t hm
        | some p =>
          rw [hr] at hm
          by_cases hx : env.indexOk = false
          · rw [if_pos hx] at hm
            exact attemptsFrom_calls env cfg cfg.max_retries 1 m t hm
          · rw [if_neg hx] at hm
            exact attemptsFrom_calls env cfg cfg.max_retries 1 m t hm
      exact hcalls
  · refine ⟨?_, ?_, ?_⟩ <;> norm_num [attemptTemp, cfgStd]

/-- Witness for C5: in a concrete cycle (all attempts erroring, default
configuration) the second generation call was passed temperature `0.8`. -/
theorem temperature_escalation_witness :
    (4/5 : ℚ) = cfgStd.temperature + ((2 - 1 : ℕ) : ℚ) * cfgStd.temperature_increment :=
  (temperature_escalation envAllFail cfgStd).1 2 (4/5)
    (by
      have hc : run_daily_cycle envAllFail cfgStd =
          ⟨false, [], [(1, attemptTemp cfgStd 1), (2, attemptTemp cfgStd 2),
            (3, attemptTemp cfgStd 3)]⟩ := rfl
      rw [hc]
      have h2 : attemptTemp cfgStd 2 = 4/5 := by norm_num [attemptTemp, cfgStd]
      simp [h2])

end Agent
